import Mathlib

/-!
Verification of the consensus-bookkeeping core of HcashOrg/hcashd.

The development shallowly embeds the stake-node machinery of
`blockchain/stakenode.go` (`fetchNewTicketsForNode`, `fetchStakeNode`,
`nodeAtHeightFromTopNode`), the stake-version majority calculator and the
block-template transaction priority queue, and proves or refutes the frozen
claims about them.

Conventions of the embedding:
- block hashes are modelled as natural numbers, with `0` as the zero hash;
- Go's in-place mutation of the per-node caches (`stakeNode`, `newTickets`)
  is modelled by threading an explicit `CacheState`;
- the external collaborators that are not part of the verified sources
  (database block fetch, `ConnectNode` / `DisconnectNode` of the stake
  package, the reorganization planner) are opaque function fields of an
  `Env` record, so every theorem quantifies over their behaviour;
- fallible Go functions returning `(value, error)` become `Except Err`.
-/

namespace Hcashd

/-- Errors surfaced by the stake-node machinery.  `dbe` stands for any error
value produced by an external collaborator (database reads, the stake-pool
connect/disconnect operations, the reorganization planner); `assert` is the
`AssertError` raised at a fork-point mismatch; `panic` models a nil-pointer
dereference crash of the Go code. -/
inductive Err where
  | dbe (code : Nat)
  | assert
  | panic
deriving DecidableEq, Repr

/-- A stake transaction of a block, as far as `fetchNewTicketsForNode` looks
at it: whether `stake.IsSStx` holds of it, and its transaction hash. -/
structure STx where
  isSStx : Bool
  txHash : Nat
deriving DecidableEq, Repr

/-- The part of a block header read by the stake-node code. -/
structure Header where
  prevKeyBlock : Nat
deriving DecidableEq, Repr

/-- A full block as fetched from the database: header plus the stake
transaction tree. -/
structure Block where
  header : Header
  sTransactions : List STx
deriving DecidableEq, Repr

/-- The immutable fields of a `blockNode` of the chain index. -/
structure NodeData where
  hash : Nat
  height : Int
  keyHeight : Int
  isKeyBlock : Bool
  parent : Option Nat
  header : Header
  ticketsSpent : List Nat
  ticketsRevoked : List Nat
  undoData : Nat
deriving DecidableEq, Repr

/-- The chain parameters consumed by the stake-node code. -/
structure Params where
  stakeEnabledHeight : Int
  ticketMaturity : Nat
deriving DecidableEq, Repr

/-- The mutable per-node caches of the chain index: the stake-node snapshot
(`blockNode.stakeNode`, an opaque value modelled as a natural number) and the
newly-maturing-ticket list (`blockNode.newTickets`).  `none` means the field
was never filled in. -/
structure CacheState where
  sn : Nat → Option Nat
  nt : Nat → Option (List Nat)

/-- The environment of a `BlockChain` value: immutable node data keyed by
node id, the best node, the chain parameters, and the external
collaborators. -/
structure Env where
  params : Params
  nodes : Nat → NodeData
  bestNode : Nat
  db : Nat → Except Err Block
  connect : Nat → Header → List Nat → List Nat → List Nat → Bool → Except Err Nat
  disconnect : Nat → Header → Nat → Option (List Nat) → Bool → Except Err Nat
  reorg : Nat → Except Err (List Nat × List Nat)

/-- Overwrite the cached stake-node snapshot of node `i`. -/
def setSN (st : CacheState) (i : Nat) (v : Nat) : CacheState :=
  ⟨fun j => if j = i then some v else st.sn j, st.nt⟩

/-- Overwrite the cached new-ticket list of node `i`. -/
def setNT (st : CacheState) (i : Nat) (v : List Nat) : CacheState :=
  ⟨st.sn, fun j => if j = i then some v else st.nt j⟩

@[simp] theorem setSN_sn_self (st : CacheState) (i v : Nat) :
    (setSN st i v).sn i = some v := by simp [setSN]

@[simp] theorem setSN_nt (st : CacheState) (i v : Nat) :
    (setSN st i v).nt = st.nt := rfl

@[simp] theorem setNT_sn (st : CacheState) (i : Nat) (v : List Nat) :
    (setNT st i v).sn = st.sn := rfl

@[simp] theorem setNT_nt_self (st : CacheState) (i : Nat) (v : List Nat) :
    (setNT st i v).nt i = some v := by simp [setNT]

/-- Go's `uint16` decrement `m - 1`: the loop bound
`i < b.chainParams.TicketMaturity - 1` is computed in `uint16` arithmetic,
so `TicketMaturity = 0` wraps around to `65535`. -/
def u16pred (m : Nat) : Nat :=
  (m + 65535) % 65536

/-- The backward walk of `fetchNewTicketsForNode`: starting from an already
fetched block, follow `PrevKeyBlock` links `fuel` further times, stopping
early as soon as the current block's `PrevKeyBlock` is the zero hash.  Each
step is a database fetch that may fail. -/
def walkPrevKeyBlock (db : Nat → Except Err Block) : Nat → Block → Except Err Block
  | 0, blk => .ok blk
  | fuel + 1, blk =>
    if blk.header.prevKeyBlock = 0 then .ok blk
    else
      match db blk.header.prevKeyBlock with
      | .error e => .error e
      | .ok blk2 => walkPrevKeyBlock db fuel blk2

/-- The ticket hashes collected from a maturation-source block: the hash of
every stake transaction satisfying `stake.IsSStx`, in block order. -/
def sstxHashes (blk : Block) : List Nat :=
  (blk.sTransactions.filter (fun stx => stx.isSStx)).map (fun stx => stx.txHash)

/-- Embedding of `BlockChain.fetchNewTicketsForNode` (stakenode.go:53-108).
Returns the possibly-updated cache state and the result.  The steps, in
source order: the `keyHeight < StakeEnabledHeight` early return, the
`newTickets` cache hit, a database fetch of the block at
`node.header.PrevKeyBlock`, the `TicketMaturity - 1` further key-block steps
(in `uint16` arithmetic, breaking on a zero `PrevKeyBlock`), the SStx hash
collection, and caching of the collected list on the node. -/
def fetchNewTicketsForNode (env : Env) (st : CacheState) (i : Nat) :
    CacheState × Except Err (List Nat) :=
  let node := env.nodes i
  if node.keyHeight < env.params.stakeEnabledHeight then (st, .ok [])
  else
    match st.nt i with
    | some cached => (st, .ok cached)
    | none =>
      match env.db node.header.prevKeyBlock with
      | .error e => (st, .error e)
      | .ok blk0 =>
        match walkPrevKeyBlock env.db (u16pred env.params.ticketMaturity) blk0 with
        | .error e => (st, .error e)
        | .ok mature => (setNT st i (sstxHashes mature), .ok (sstxHashes mature))

/-- The new-ticket fill-in step shared by the parent fast path and the attach
loop of `fetchStakeNode` (stakenode.go:131-139 and 229-238): if the node's
`newTickets` cache is empty, fetch it via `fetchNewTicketsForNode` when the
node is a key block (and store the returned list on the node, as the Go
assignment `n.newTickets, err = b.fetchNewTicketsForNode(n)` does), or store
the empty list otherwise. -/
def fillNewTickets (env : Env) (st : CacheState) (i : Nat) :
    CacheState × Except Err (List Nat) :=
  match st.nt i with
  | some t => (st, .ok t)
  | none =>
    if (env.nodes i).isKeyBlock then
      match fetchNewTicketsForNode env st i with
      | (st1, .error e) => (st1, .error e)
      | (st1, .ok t) => (setNT st1 i t, .ok t)
    else (setNT st i [], .ok [])

/-- The detach loop of `fetchStakeNode` (first `db.View`, stakenode.go:169-185):
walk the detach list, disconnecting each node whose snapshot is not yet
cached from the current node's snapshot, caching the produced snapshot, and
advancing `current`.  A failed disconnect aborts the walk with the error;
cache writes of completed iterations remain. -/
def detachLoop (env : Env) :
    CacheState → Nat → List Nat → CacheState × Except Err Nat
  | st, current, [] => (st, .ok current)
  | st, current, n :: rest =>
    match st.sn n with
    | some _ => detachLoop env st n rest
    | none =>
      match st.sn current with
      | none => (st, .error .panic)
      | some curSN =>
        match env.disconnect curSN (env.nodes n).header (env.nodes n).undoData
            (st.nt n) (env.nodes current).isKeyBlock with
        | .error e => (st, .error e)
        | .ok s => detachLoop env (setSN st n s) n rest

/-- The final detach step of `fetchStakeNode` (second `db.View`,
stakenode.go:192-204): disconnect once more onto `current.parent` if its
snapshot is not yet cached, then move `current` to the parent.  Dereferencing
a missing parent is the Go nil-pointer crash, modelled as `Err.panic`. -/
def finalDetach (env : Env) (st : CacheState) (current : Nat) :
    CacheState × Except Err Nat :=
  match (env.nodes current).parent with
  | none => (st, .error .panic)
  | some pid =>
    match st.sn pid with
    | some _ => (st, .ok pid)
    | none =>
      match st.sn current with
      | none => (st, .error .panic)
      | some curSN =>
        match env.disconnect curSN (env.nodes pid).header (env.nodes pid).undoData
            (st.nt pid) (env.nodes current).isKeyBlock with
        | .error e => (st, .error e)
        | .ok s => (setSN st pid s, .ok pid)

/-- The attach loop of `fetchStakeNode` (stakenode.go:225-248): walk the
attach list, filling in each uncached node's `newTickets` and snapshot by
connecting onto the current node's snapshot, and advancing `current`. -/
def attachLoop (env : Env) :
    CacheState → Nat → List Nat → CacheState × Except Err Nat
  | st, current, [] => (st, .ok current)
  | st, current, n :: rest =>
    match st.sn n with
    | some _ => attachLoop env st n rest
    | none =>
      match fillNewTickets env st n with
      | (st1, .error e) => (st1, .error e)
      | (st1, .ok t) =>
        match st1.sn current with
        | none => (st1, .error .panic)
        | some curSN =>
          match env.connect curSN (env.nodes n).header (env.nodes n).ticketsSpent
              (env.nodes n).ticketsRevoked t (env.nodes n).isKeyBlock with
          | .error e => (st1, .error e)
          | .ok s => attachLoop env (setSN st1 n s) n rest

/-- The reconstruction path of `fetchStakeNode` (stakenode.go:159-250), taken
when neither the node's nor its parent's snapshot is cached: plan the reorg,
run the detach walk and the final detach step; if the attach list is empty,
check that the node reached is the requested one (hash and height) and
return its snapshot, raising `AssertError` on a mismatch; otherwise run the
attach walk and return the final snapshot. -/
def reorgPath (env : Env) (st : CacheState) (i : Nat) :
    CacheState × Except Err Nat :=
  match env.reorg i with
  | .error e => (st, .error e)
  | .ok (detachNodes, attachNodes) =>
    match detachLoop env st env.bestNode detachNodes with
    | (st1, .error e) => (st1, .error e)
    | (st1, .ok cur1) =>
      match finalDetach env st1 cur1 with
      | (st2, .error e) => (st2, .error e)
      | (st2, .ok cur2) =>
        if attachNodes.isEmpty then
          if (env.nodes cur2).hash ≠ (env.nodes i).hash ∨
              (env.nodes cur2).height ≠ (env.nodes i).height then
            (st2, .error .assert)
          else
            match st2.sn cur2 with
            | none => (st2, .error .panic)
            | some s => (st2, .ok s)
        else
          match attachLoop env st2 cur2 attachNodes with
          | (st3, .error e) => (st3, .error e)
          | (st3, .ok curF) =>
            match st3.sn curF with
            | none => (st3, .error .panic)
            | some s => (st3, .ok s)

/-- Embedding of `BlockChain.fetchStakeNode` (stakenode.go:119-251): the
cached fast path, the parent fast path (connect onto the parent's cached
snapshot after filling in `newTickets`), and otherwise the detach/attach
reconstruction path. -/
def fetchStakeNode (env : Env) (st : CacheState) (i : Nat) :
    CacheState × Except Err Nat :=
  match st.sn i with
  | some s => (st, .ok s)
  | none =>
    match (env.nodes i).parent with
    | none => reorgPath env st i
    | some pid =>
      match st.sn pid with
      | none => reorgPath env st i
      | some psn =>
        match fillNewTickets env st i with
        | (st1, .error e) => (st1, .error e)
        | (st1, .ok t) =>
          match env.connect psn (env.nodes i).header (env.nodes i).ticketsSpent
              (env.nodes i).ticketsRevoked t (env.nodes i).isKeyBlock with
          | .error e => (st1, .error e)
          | .ok s => (setSN st1 i s, .ok s)

/-! ### `nodeAtHeightFromTopNode` and the key-block predicate

`nodeAtHeightFromTopNode` (stakenode.go:17-45) only needs a node's hash
bytes, its header's `Bits` field and its parent chain, so it gets its own
small node type with the parent chain built into the structure.  A node's
key-block status is decided exactly as in the source: the block hash,
converted by `HashToBig`, compared against `CompactToBig` of the header's
`Bits`. -/

/-- `wire.HashToBig`: a hash is stored in little-endian byte order; reverse
the bytes and interpret them in big-endian order as an unsigned integer. -/
def HashToBig (hash : List Nat) : Nat :=
  hash.reverse.foldl (fun acc b => acc * 256 + b) 0

/-- `wire.CompactToBig`: decode a compact-representation target.  The low 23
bits are the mantissa, bit 24 is the sign, and the top byte is a base-256
exponent applied as a byte shift of the mantissa. -/
def CompactToBig (compact : Nat) : Int :=
  let mantissa0 : Nat := compact &&& 0x007fffff
  let isNegative : Bool := compact &&& 0x00800000 ≠ 0
  let exponent : Nat := compact >>> 24
  let bn : Nat :=
    if exponent ≤ 3 then mantissa0 >>> (8 * (3 - exponent))
    else mantissa0 <<< (8 * (exponent - 3))
  if isNegative then -(bn : Int) else (bn : Int)

/-- A block-metadata node as walked by `nodeAtHeightFromTopNode`: hash bytes,
the header's `Bits` field, the height, and the parent chain (`root` is the
genesis block, whose `getPrevNodeFromNode` result is nil). -/
inductive PNode where
  | root (hash : List Nat) (bits : Nat) (height : Int)
  | cons (hash : List Nat) (bits : Nat) (height : Int) (parent : PNode)
deriving DecidableEq, Repr

/-- The hash bytes of a `PNode`. -/
def PNode.hash : PNode → List Nat
  | .root h _ _ => h
  | .cons h _ _ _ => h

/-- The header `Bits` field of a `PNode`. -/
def PNode.bits : PNode → Nat
  | .root _ b _ => b
  | .cons _ b _ _ => b

/-- The height of a `PNode`. -/
def PNode.height : PNode → Int
  | .root _ _ ht => ht
  | .cons _ _ ht _ => ht

/-- The parent of a `PNode`, `none` at the genesis boundary
(`getPrevNodeFromNode` returning nil). -/
def PNode.parent : PNode → Option PNode
  | .root _ _ _ => none
  | .cons _ _ _ p => p

/-- The key-block test applied by `nodeAtHeightFromTopNode` at line 36:
`HashToBig(&(oldNode.hash)).Cmp(CompactToBig(oldNode.header.Bits)) <= 0`. -/
def isKeyPNode (n : PNode) : Bool :=
  (HashToBig n.hash : Int) ≤ CompactToBig n.bits

/-- Embedding of `BlockChain.nodeAtHeightFromTopNode` (stakenode.go:20-45),
generalized over the running counter: step to the previous node (`none`,
i.e. an error, at the genesis boundary), increment the count if that node is
a key block, and stop at it as soon as the count reaches `toTraverse`. -/
def nodeAtHeightFromTopNode : PNode → Int → Int → Option PNode
  | .root _ _ _, _, _ => none
  | .cons _ _ _ p, toTraverse, count =>
    let count2 : Int := if isKeyPNode p then count + 1 else count
    if toTraverse ≤ count2 then some p
    else nodeAtHeightFromTopNode p toTraverse count2

/-- The proper ancestors of a `PNode`, nearest first. -/
def PNode.ancestors : PNode → List PNode
  | .root _ _ _ => []
  | .cons _ _ _ p => p :: p.ancestors

/-- The specification-side search over a list of ancestors: return the first
node at which the running count of key blocks reaches `toTraverse`, and
`none` when the list is exhausted before the count is attained. -/
def keyCountSearch : List PNode → Int → Int → Option PNode
  | [], _, _ => none
  | a :: rest, toTraverse, count =>
    let count2 : Int := if isKeyPNode a then count + 1 else count
    if toTraverse ≤ count2 then some a
    else keyCountSearch rest toTraverse count2

/-! ### Stake-version majority calculator (spec-modelled)

The implementation of `isVoterMajorityVersion` and `calcWantHeight` is not
among the provided sources; only their tests (`stakeversion_test.go`) and the
chain parameters are.  The functions below are therefore modelled from the
specification. -/

/-- Modelled from the spec: the repository's `isVoterMajorityVersion`
implementation is missing from the sources (only `stakeversion_test.go`
exercises it).  Per the spec, versions are tallied over the
`StakeVersionInterval`-block window ending at the node (here: the window's
blocks, each given by its list of cast vote versions), and a version has
voter majority if the votes favouring it or any version at least it reach
or exceed `windowVoteCount * StakeMajorityMultiplier / StakeMajorityDivisor`
with truncating integer division. -/
def isVoterMajorityVersion (mult div version : Nat) (window : List (List Nat)) : Bool :=
  let totalVotes := (window.map List.length).sum
  let versionCount :=
    (window.map (fun votes => (votes.filter (fun v => version ≤ v)).length)).sum
  totalVotes * mult / div ≤ versionCount

/-- The number of votes of the window cast with a version at least the
queried version. -/
def windowVersionCount (version : Nat) (window : List (List Nat)) : Nat :=
  (window.map (fun votes => (votes.filter (fun v => version ≤ v)).length)).sum

/-- The total number of votes cast in the window. -/
def windowVoteCount (window : List (List Nat)) : Nat :=
  (window.map List.length).sum

/-- Modelled from the spec: the repository's `calcWantHeight` implementation
is missing from the sources (only `TestCalcWantHeight` exercises it).  Per
the spec, with stake validation height `skip` and window size `interval` the
vote windows are `[skip + interval*k, skip + interval*(k+1) - 1]` for
`k ≥ 1` (for `skip = 13`, `interval = 11`: 24-34, 35-45, 46-56, ...), and
`calcWantHeight` returns the last height of the most recently completed
window, i.e. the largest height of the form `skip + interval*k - 1` not
exceeding `height - 1`. -/
def calcWantHeight (skip interval height : Nat) : Nat :=
  skip + interval * ((height - skip) / interval) - 1

/-! ### Transaction priority queue (spec-modelled)

The mining priority queue (`txPrioItem`, `txStakePriority`,
`txPQByStakeAndFee`, `txPQByStakeAndFeeAndThenPriority`) is not among the
provided sources; only its tests are.  The comparators are modelled from the
specification; fee-per-KB and legacy priority are modelled as integers (the
ordering is all that matters to the claims). -/

/-- The stake-relevant transaction types (`stake.TxType`). -/
inductive TxType where
  | regular
  | ticket
  | vote
  | revocation
deriving DecidableEq, Repr

/-- A scheduling record for a candidate transaction of a block template. -/
structure TxPrioItem where
  txType : TxType
  feePerKB : Int
  priority : Int
deriving DecidableEq, Repr

/-- Modelled from the spec: the stake-priority class of a transaction type,
with class ordering (highest to lowest) stake-vote > stake-ticket-purchase >
stake-revocation = regular (revocation and regular share a tier). -/
def txStakePriority : TxType → Nat
  | .vote => 2
  | .ticket => 1
  | .revocation => 0
  | .regular => 0

/-- Whether a transaction type falls in the shared lowest tier
(`regOrRevocPriority`). -/
def regOrRevoc (t : TxType) : Bool :=
  txStakePriority t = 0

/-- Modelled from the spec: the primary comparator `txPQByStakeAndFee`.
`txPQByStakeAndFee a b` holds when `a` must be popped before `b`: a strictly
higher stake-priority class, or an equal class and a strictly higher
fee-per-KB. -/
def txPQByStakeAndFee (a b : TxPrioItem) : Bool :=
  if txStakePriority a.txType = txStakePriority b.txType then
    b.feePerKB < a.feePerKB
  else
    txStakePriority b.txType < txStakePriority a.txType

/-- Modelled from the spec: the secondary comparator
`txPQByStakeAndFeeAndThenPriority`.  When both items fall in the
regular-or-revocation tier the legacy priority score breaks the tie instead
of the fee; otherwise the comparison is exactly `txPQByStakeAndFee`. -/
def txPQByStakeAndFeeAndThenPriority (a b : TxPrioItem) : Bool :=
  if regOrRevoc a.txType && regOrRevoc b.txType then
    b.priority < a.priority
  else
    txPQByStakeAndFee a b

/-- Modelled from the spec: the priority queue is a max-heap over the
injected comparator whose `pop` always returns a highest-ranked remaining
item, so popping until empty yields a permutation of the pushed multiset in
which no later item strictly outranks an earlier one.  The pop sequence is
modelled as sorting the pushed items by the relation "is not strictly
outranked by". -/
def popAll (cmp : TxPrioItem → TxPrioItem → Bool) (items : List TxPrioItem) :
    List TxPrioItem :=
  items.insertionSort (fun a b => cmp b a = false)

/-! ### Helper lemmas -/

/-- Go's `uint16` decrement agrees with the mathematical `m - 1` for
in-range positive maturities. -/
theorem u16pred_eq (m : Nat) (h1 : 1 ≤ m) (h2 : m ≤ 65535) : u16pred m = m - 1 := by
  unfold u16pred
  omega

/-- `nodeAtHeightFromTopNode` is the key-count search over the proper
ancestor list, for every value of the running counter. -/
theorem nodeAtHeightFromTopNode_eq_search (node : PNode) :
    ∀ toTraverse count, nodeAtHeightFromTopNode node toTraverse count =
      keyCountSearch node.ancestors toTraverse count := by
  induction node with
  | root h b ht => intro t c; rfl
  | cons h b ht p ih =>
    intro t c
    simp only [nodeAtHeightFromTopNode, PNode.ancestors, keyCountSearch]
    split <;> split <;> first | rfl | exact ih t _

/-! ### Claim C1 -/

/-- C1: for a key-block node whose `keyHeight` is at least
`StakeEnabledHeight` and whose new-ticket list is not yet cached,
`fetchNewTicketsForNode` fetches the block at the node's `PrevKeyBlock`,
follows `PrevKeyBlock` links exactly `TicketMaturity - 1` further times
(stopping early as soon as the current block's `PrevKeyBlock` is the zero
hash), and returns exactly the hashes of that maturation-source block's
ticket-purchase (SStx) stake transactions, in block order, caching them on
the node. -/
theorem C1_fetchNewTickets_maturation_walk (env : Env) (st : CacheState) (i : Nat)
    (blk0 mature : Block)
    (hkey : (env.nodes i).isKeyBlock = true)
    (hheight : env.params.stakeEnabledHeight ≤ (env.nodes i).keyHeight)
    (hcache : st.nt i = none)
    (htm1 : 1 ≤ env.params.ticketMaturity)
    (htm2 : env.params.ticketMaturity ≤ 65535)
    (hfetch : env.db (env.nodes i).header.prevKeyBlock = .ok blk0)
    (hwalk : walkPrevKeyBlock env.db (env.params.ticketMaturity - 1) blk0 = .ok mature) :
    fetchNewTicketsForNode env st i =
      (setNT st i (sstxHashes mature), .ok (sstxHashes mature)) := by
  have hw2 : walkPrevKeyBlock env.db (u16pred env.params.ticketMaturity) blk0 =
      .ok mature := by
    rw [u16pred_eq _ htm1 htm2]
    exact hwalk
  unfold fetchNewTicketsForNode
  rw [if_neg (not_lt.mpr hheight), hcache, hfetch]
  simp only [hw2]

/-- Concrete environment exercising the maturation walk: node 0 points at
block hash 5, whose block points at key-block hash 3, whose block carries
stake transactions `[SStx 77, non-SStx 88, SStx 99]`. -/
def envWalk : Env where
  params := ⟨0, 2⟩
  nodes := fun i =>
    if i = 0 then ⟨100, 9, 5, true, none, ⟨5⟩, [], [], 0⟩
    else ⟨i, 0, 0, false, none, ⟨0⟩, [], [], 0⟩
  bestNode := 0
  db := fun h =>
    if h = 5 then .ok ⟨⟨3⟩, []⟩
    else if h = 3 then .ok ⟨⟨0⟩, [⟨true, 77⟩, ⟨false, 88⟩, ⟨true, 99⟩]⟩
    else .error (.dbe 0)
  connect := fun _ _ _ _ _ _ => .error (.dbe 1)
  disconnect := fun _ _ _ _ _ => .error (.dbe 1)
  reorg := fun _ => .error (.dbe 1)

/-- The empty cache state. -/
def emptyCache : CacheState := ⟨fun _ => none, fun _ => none⟩

/-- Witness for C1: in `envWalk`, with `TicketMaturity = 2`, the walk takes
one further `PrevKeyBlock` step past block 5, lands on block 3, and the two
SStx hashes 77 and 99 are returned in block order. -/
theorem C1_fetchNewTickets_maturation_walk_witness :
    fetchNewTicketsForNode envWalk emptyCache 0 =
      (setNT emptyCache 0 [77, 99], .ok [77, 99]) :=
  C1_fetchNewTickets_maturation_walk envWalk emptyCache 0
    ⟨⟨3⟩, []⟩ ⟨⟨0⟩, [⟨true, 77⟩, ⟨false, 88⟩, ⟨true, 99⟩]⟩
    (by decide) (by decide) rfl (by decide) (by decide) rfl rfl

/-! ### Claim C2 -/

/-- Environment refuting C2: node 0 is not a key block, yet its `keyHeight`
is past `StakeEnabledHeight`, so `fetchNewTicketsForNode` still walks the
database and returns a non-empty ticket list. -/
def envC2 : Env where
  params := ⟨0, 2⟩
  nodes := fun i =>
    if i = 0 then ⟨100, 9, 5, false, none, ⟨5⟩, [], [], 0⟩
    else ⟨i, 0, 0, false, none, ⟨0⟩, [], [], 0⟩
  bestNode := 0
  db := fun h =>
    if h = 5 then .ok ⟨⟨3⟩, []⟩
    else if h = 3 then .ok ⟨⟨0⟩, [⟨true, 77⟩, ⟨false, 88⟩, ⟨true, 99⟩]⟩
    else .error (.dbe 0)
  connect := fun _ _ _ _ _ _ => .error (.dbe 1)
  disconnect := fun _ _ _ _ _ => .error (.dbe 1)
  reorg := fun _ => .error (.dbe 1)

/-- Counterexample to C2 as stated: `fetchNewTicketsForNode` never inspects
`isKeyBlock`, so on a non-key-block node whose `keyHeight` is at least
`StakeEnabledHeight` it does not return the empty list: in `envC2` it
returns the ticket hashes 77 and 99. -/
theorem C2_counterexample :
    (envC2.nodes 0).isKeyBlock = false ∧
    envC2.params.stakeEnabledHeight ≤ (envC2.nodes 0).keyHeight ∧
    (fetchNewTicketsForNode envC2 emptyCache 0).2 = .ok [77, 99] := by
  refine ⟨rfl, by decide, ?_⟩
  rfl

/-- C2 (amended): `fetchNewTicketsForNode(node)` returns the empty ticket
list with no error, and leaves the caches untouched, whenever
`node.keyHeight < StakeEnabledHeight`; the not-a-key-block case is instead
handled by the caller `fetchStakeNode`, which stores an empty list on the
node without calling `fetchNewTicketsForNode`. -/
theorem C2_fetchNewTickets_empty_below_enabled (env : Env) (st : CacheState) (i : Nat)
    (h : (env.nodes i).keyHeight < env.params.stakeEnabledHeight) :
    fetchNewTicketsForNode env st i = (st, .ok []) := by
  unfold fetchNewTicketsForNode
  rw [if_pos h]

/-- Witness for the amended C2: node 1 of `envWalk` has `keyHeight 0` below
`StakeEnabledHeight`... here `envC2lo` places the enabled height at 7. -/
def envC2lo : Env :=
  { envC2 with params := ⟨7, 2⟩ }

/-- Witness for the amended C2: in `envC2lo` node 0 has `keyHeight 5 < 7`,
and `fetchNewTicketsForNode` returns the empty list without touching the
state. -/
theorem C2_fetchNewTickets_empty_below_enabled_witness :
    fetchNewTicketsForNode envC2lo emptyCache 0 = (emptyCache, .ok []) :=
  C2_fetchNewTickets_empty_below_enabled envC2lo emptyCache 0 (by decide)

/-! ### Claim C6 -/

/-- C6: `isVoterMajorityVersion` with the mainnet majority parameters
(multiplier 3, divisor 4) returns `true` exactly when the number of window
votes cast with a version at least the queried version reaches or exceeds
`windowVoteCount * 3 / 4` with truncating division; in particular, on any
non-empty window whose vote count is a multiple of 4, exactly 75% of the
votes meets the threshold and one vote fewer does not. -/
theorem C6_voter_majority_threshold (version : Nat) (window : List (List Nat)) :
    (isVoterMajorityVersion 3 4 version window = true ↔
      windowVoteCount window * 3 / 4 ≤ windowVersionCount version window) ∧
    (4 ∣ windowVoteCount window → 0 < windowVoteCount window →
      (windowVersionCount version window = windowVoteCount window * 3 / 4 →
        isVoterMajorityVersion 3 4 version window = true) ∧
      (windowVersionCount version window = windowVoteCount window * 3 / 4 - 1 →
        isVoterMajorityVersion 3 4 version window = false)) := by
  have hdef : isVoterMajorityVersion 3 4 version window =
      decide (windowVoteCount window * 3 / 4 ≤ windowVersionCount version window) := rfl
  constructor
  · rw [hdef]
    exact decide_eq_true_iff
  · intro hdvd hpos
    constructor
    · intro hc
      rw [hdef, decide_eq_true_iff]
      omega
    · intro hc
      rw [hdef, decide_eq_false_iff_not]
      omega

/-- Witness for C6: a single-block window with four votes.  With votes
`[2, 2, 2, 1]` the queried version 2 has exactly 75% support and passes;
with votes `[2, 2, 1, 1]` it has one vote fewer than 75% and fails. -/
theorem C6_voter_majority_threshold_witness :
    isVoterMajorityVersion 3 4 2 [[2, 2, 2, 1]] = true ∧
    isVoterMajorityVersion 3 4 2 [[2, 2, 1, 1]] = false := by
  constructor
  · exact ((C6_voter_majority_threshold 2 [[2, 2, 2, 1]]).2 (by decide) (by decide)).1
      (by decide)
  · exact ((C6_voter_majority_threshold 2 [[2, 2, 1, 1]]).2 (by decide) (by decide)).2
      (by decide)

/-! ### Claim C7 -/

/-- C7: with `skip = 13` and `interval = 11`, `calcWantHeight` returns the
last height of the most recently completed window: `34 + 11*k` for every
height in `[35 + 11*k, 45 + 11*k]`, for all `k ≥ 0`. -/
theorem C7_calcWantHeight_windows (k h : Nat)
    (h1 : 35 + 11 * k ≤ h) (h2 : h ≤ 45 + 11 * k) :
    calcWantHeight 13 11 h = 34 + 11 * k := by
  unfold calcWantHeight
  omega

/-- Witness for C7: height 50 lies in the window `[46, 56]` (`k = 1`), whose
most recently completed predecessor window ends at height 45. -/
theorem C7_calcWantHeight_windows_witness : calcWantHeight 13 11 50 = 34 + 11 * 1 :=
  C7_calcWantHeight_windows 1 50 (by decide) (by decide)

/-! ### Claim C10 -/

/-- C10: for every node and every `toTraverse ≥ 1`,
`nodeAtHeightFromTopNode` walks parent links and returns the first ancestor
at which the running count of key blocks (blocks whose hash, converted by
`HashToBig`, is at most the `CompactToBig` target of their `Bits` field)
reaches `toTraverse` — an ancestor selected by key-block count, not by block
height — and returns an error (`none`) whenever the genesis boundary is
reached before that count is attained. -/
theorem C10_nodeAtHeight_counts_key_blocks (node : PNode) (toTraverse : Int)
    (h : 1 ≤ toTraverse) :
    nodeAtHeightFromTopNode node toTraverse 0 =
      keyCountSearch node.ancestors toTraverse 0 :=
  nodeAtHeightFromTopNode_eq_search node toTraverse 0

/-- A three-node chain for the C10 witness: the tip's parent is not a key
block (hash 65535 above target 16) but the grandparent is (hash 1 below
target 16), so a walk with `toTraverse = 1` skips the parent and stops at
the grandparent, two heights below the tip. -/
def pchainC10 : PNode :=
  .cons [9] 50331664 9
    (.cons [255, 255] 50331664 8
      (.cons [1] 50331664 7
        (.root [2] 50331664 6)))

/-- Witness for C10: on `pchainC10` with `toTraverse = 1` the walk agrees
with the key-count search and lands on the key-block grandparent at height
7, not on the height-8 parent a height-based reading would give. -/
theorem C10_nodeAtHeight_counts_key_blocks_witness :
    nodeAtHeightFromTopNode pchainC10 1 0 =
      keyCountSearch pchainC10.ancestors 1 0 ∧
    nodeAtHeightFromTopNode pchainC10 1 0 =
      some (.cons [1] 50331664 7 (.root [2] 50331664 6)) := by
  refine ⟨C10_nodeAtHeight_counts_key_blocks pchainC10 1 (by decide), ?_⟩
  decide

/-! ### Claims C8 and C9: the transaction priority queue -/

/-- The comparators give no strict rank to any item over itself or over an
equally-ranked item, in either direction (totality of "not outranked"). -/
theorem byStakeAndFee_total (a b : TxPrioItem) :
    txPQByStakeAndFee b a = false ∨ txPQByStakeAndFee a b = false := by
  unfold txPQByStakeAndFee
  split_ifs <;> simp_all [decide_eq_false_iff_not] <;> omega

/-- "Not strictly outranked" is transitive for `txPQByStakeAndFee`. -/
theorem byStakeAndFee_trans (a b c : TxPrioItem)
    (h1 : txPQByStakeAndFee b a = false) (h2 : txPQByStakeAndFee c b = false) :
    txPQByStakeAndFee c a = false := by
  unfold txPQByStakeAndFee at h1 h2 ⊢
  split_ifs at h1 h2 ⊢ <;> simp_all [decide_eq_false_iff_not] <;> omega

/-- Totality of "not outranked" for `txPQByStakeAndFeeAndThenPriority`. -/
theorem byStakeAndFeeThenPrio_total (a b : TxPrioItem) :
    txPQByStakeAndFeeAndThenPriority b a = false ∨
    txPQByStakeAndFeeAndThenPriority a b = false := by
  obtain ⟨ta, fa, pa⟩ := a
  obtain ⟨tb, fb, pb⟩ := b
  cases ta <;> cases tb <;>
    simp [txPQByStakeAndFeeAndThenPriority, txPQByStakeAndFee, regOrRevoc,
      txStakePriority, decide_eq_false_iff_not] <;> omega

/-- "Not strictly outranked" is transitive for
`txPQByStakeAndFeeAndThenPriority`. -/
theorem byStakeAndFeeThenPrio_trans (a b c : TxPrioItem)
    (h1 : txPQByStakeAndFeeAndThenPriority b a = false)
    (h2 : txPQByStakeAndFeeAndThenPriority c b = false) :
    txPQByStakeAndFeeAndThenPriority c a = false := by
  obtain ⟨ta, fa, pa⟩ := a
  obtain ⟨tb, fb, pb⟩ := b
  obtain ⟨tc, fc, pc⟩ := c
  cases ta <;> cases tb <;> cases tc <;>
    simp_all [txPQByStakeAndFeeAndThenPriority, txPQByStakeAndFee, regOrRevoc,
      txStakePriority, decide_eq_false_iff_not] <;> omega

/-- An adjacent pop pair as C8 claims it, weakened to non-strict fee descent:
the later item's stake class does not exceed the earlier one's, and on equal
classes the later fee-per-KB does not exceed the earlier one. -/
def stakeFeeOrdered (a b : TxPrioItem) : Prop :=
  txStakePriority b.txType ≤ txStakePriority a.txType ∧
    (txStakePriority b.txType = txStakePriority a.txType → b.feePerKB ≤ a.feePerKB)

instance : DecidableRel stakeFeeOrdered := fun a b =>
  inferInstanceAs (Decidable (txStakePriority b.txType ≤ txStakePriority a.txType ∧
    (txStakePriority b.txType = txStakePriority a.txType → b.feePerKB ≤ a.feePerKB)))

/-- An adjacent pop pair exactly as C8 states it: strictly class-descending,
or equal class with strictly descending fee-per-KB. -/
def stakeFeeStrict (a b : TxPrioItem) : Prop :=
  txStakePriority b.txType < txStakePriority a.txType ∨
    (txStakePriority b.txType = txStakePriority a.txType ∧ b.feePerKB < a.feePerKB)

instance : DecidableRel stakeFeeStrict := fun a b =>
  inferInstanceAs (Decidable (txStakePriority b.txType < txStakePriority a.txType ∨
    (txStakePriority b.txType = txStakePriority a.txType ∧ b.feePerKB < a.feePerKB)))

/-- Not being outranked under `txPQByStakeAndFee` means class-descending and,
on equal classes, fee-descending. -/
theorem byStakeAndFee_imp (a b : TxPrioItem)
    (h : txPQByStakeAndFee b a = false) : stakeFeeOrdered a b := by
  unfold txPQByStakeAndFee at h
  unfold stakeFeeOrdered
  split_ifs at h <;> simp_all [decide_eq_false_iff_not] <;> omega

/-- The duplicated fixture item of `fakePrioritizedTxes`:
`feePerKB: 5678, txType: TxTypeRegular, priority: 1` occurs twice. -/
def itdup : TxPrioItem := ⟨.regular, 5678, 1⟩

/-- Counterexample to C8 as stated: the queue is a multiset, so the
duplicated fixture item `(regular, fee 5678, priority 1)` can be pushed
twice, and the resulting pop sequence repeats it: the adjacent pair has
equal class and equal fee, so the sequence is not strictly
fee-per-KB-descending within the equal stake class. -/
theorem C8_counterexample :
    ¬ List.Chain' stakeFeeStrict (popAll txPQByStakeAndFee [itdup, itdup]) := by
  have h : popAll txPQByStakeAndFee [itdup, itdup] = [itdup, itdup] := rfl
  rw [h, List.chain'_cons]
  rintro ⟨h1, _⟩
  simp [stakeFeeStrict, itdup] at h1

/-- C8 (amended): for every finite multiset pushed into a queue ordered by
`txPQByStakeAndFee`, popping until empty yields a permutation of the pushed
items that is stake-class-descending across classes (vote above ticket
purchase above the shared revocation/regular tier) and
fee-per-KB-descending — non-strictly, since duplicate fee values are
retained — within equal stake class, with no violation at any adjacent
pair. -/
theorem C8_popAll_stake_fee_descending (items : List TxPrioItem) :
    (popAll txPQByStakeAndFee items).Perm items ∧
    List.Chain' stakeFeeOrdered (popAll txPQByStakeAndFee items) := by
  constructor
  · exact List.perm_insertionSort _ items
  · haveI : IsTotal TxPrioItem (fun a b => txPQByStakeAndFee b a = false) :=
      ⟨byStakeAndFee_total⟩
    haveI : IsTrans TxPrioItem (fun a b => txPQByStakeAndFee b a = false) :=
      ⟨byStakeAndFee_trans⟩
    have hs := List.sorted_insertionSort (fun a b => txPQByStakeAndFee b a = false) items
    exact List.Pairwise.chain' (List.Pairwise.imp (byStakeAndFee_imp _ _) hs)

/-- An adjacent pop pair as C9 claims it: when both items sit in the shared
regular-or-revocation tier, the legacy priority score is non-increasing;
otherwise the stake class is non-increasing and on equal classes the
fee-per-KB is non-increasing. -/
def condPrioOrdered (a b : TxPrioItem) : Prop :=
  ((regOrRevoc a.txType && regOrRevoc b.txType) = true →
    b.priority ≤ a.priority) ∧
  ((regOrRevoc a.txType && regOrRevoc b.txType) = false →
    txStakePriority b.txType ≤ txStakePriority a.txType ∧
      (txStakePriority b.txType = txStakePriority a.txType → b.feePerKB ≤ a.feePerKB))

/-- Not being outranked under `txPQByStakeAndFeeAndThenPriority` means
priority-descending on the shared lowest tier and class-then-fee-descending
otherwise. -/
theorem byStakeAndFeeThenPrio_imp (a b : TxPrioItem)
    (h : txPQByStakeAndFeeAndThenPriority b a = false) : condPrioOrdered a b := by
  obtain ⟨ta, fa, pa⟩ := a
  obtain ⟨tb, fb, pb⟩ := b
  unfold condPrioOrdered
  cases ta <;> cases tb <;>
    simp_all [txPQByStakeAndFeeAndThenPriority, txPQByStakeAndFee, regOrRevoc,
      txStakePriority, decide_eq_false_iff_not] <;> omega

/-- C9: for every finite multiset pushed into a queue ordered by
`txPQByStakeAndFeeAndThenPriority`, popping until empty yields a permutation
of the pushed items in which every adjacent pair of regular-or-revocation
tier items is ordered by descending legacy priority (not by fee), while
every adjacent pair involving a vote or a ticket purchase is ordered by
descending stake class and, within equal class, by descending
fee-per-KB. -/
theorem C9_popAll_conditional_priority (items : List TxPrioItem) :
    (popAll txPQByStakeAndFeeAndThenPriority items).Perm items ∧
    List.Chain' condPrioOrdered (popAll txPQByStakeAndFeeAndThenPriority items) := by
  constructor
  · exact List.perm_insertionSort _ items
  · haveI : IsTotal TxPrioItem (fun a b => txPQByStakeAndFeeAndThenPriority b a = false) :=
      ⟨byStakeAndFeeThenPrio_total⟩
    haveI : IsTrans TxPrioItem (fun a b => txPQByStakeAndFeeAndThenPriority b a = false) :=
      ⟨byStakeAndFeeThenPrio_trans⟩
    have hs := List.sorted_insertionSort
      (fun a b => txPQByStakeAndFeeAndThenPriority b a = false) items
    exact List.Pairwise.chain' (List.Pairwise.imp (byStakeAndFeeThenPrio_imp _ _) hs)

/-! ### Claims C3, C4, C5: `fetchStakeNode`

The stake-node code fills the per-node caches in place but never overwrites
an already-filled field.  `CacheLe st st2` captures that `st2` extends `st`:
every cache entry present in `st` is present, unchanged, in `st2`. -/

/-- Cache extension: every filled entry of `st` is filled with the same
value in `st2` (new entries may have been added). -/
def CacheLe (st st2 : CacheState) : Prop :=
  (∀ i v, st.sn i = some v → st2.sn i = some v) ∧
  (∀ i v, st.nt i = some v → st2.nt i = some v)

theorem cacheLe_refl (st : CacheState) : CacheLe st st :=
  ⟨fun _ _ h => h, fun _ _ h => h⟩

theorem cacheLe_trans {a b c : CacheState} (h1 : CacheLe a b) (h2 : CacheLe b c) :
    CacheLe a c :=
  ⟨fun i v h => h2.1 i v (h1.1 i v h), fun i v h => h2.2 i v (h1.2 i v h)⟩

/-- Writing a snapshot into a slot that was empty in the original state
preserves extension of the original state. -/
theorem cacheLe_setSN {st st2 : CacheState} {i : Nat} (h : CacheLe st st2)
    (hn : st.sn i = none) (v : Nat) : CacheLe st (setSN st2 i v) := by
  refine ⟨fun j w hj => ?_, fun j w hj => h.2 j w hj⟩
  have hne : j ≠ i := by
    intro he
    rw [he, hn] at hj
    exact Option.noConfusion hj
  simpa [setSN, hne] using h.1 j w hj

/-- Writing a ticket list into a slot that was empty in the original state
preserves extension of the original state. -/
theorem cacheLe_setNT {st st2 : CacheState} {i : Nat} (h : CacheLe st st2)
    (hn : st.nt i = none) (v : List Nat) : CacheLe st (setNT st2 i v) := by
  refine ⟨fun j w hj => h.1 j w hj, fun j w hj => ?_⟩
  have hne : j ≠ i := by
    intro he
    rw [he, hn] at hj
    exact Option.noConfusion hj
  simpa [setNT, hne] using h.2 j w hj

/-- `fetchNewTicketsForNode` only adds cache entries, never changes one. -/
theorem fetchNewTickets_cacheLe (env : Env) (st : CacheState) (i : Nat) :
    CacheLe st (fetchNewTicketsForNode env st i).1 := by
  by_cases h1 : (env.nodes i).keyHeight < env.params.stakeEnabledHeight
  · simp [fetchNewTicketsForNode, h1, cacheLe_refl]
  · cases h2 : st.nt i with
    | some t => simp [fetchNewTicketsForNode, h1, h2, cacheLe_refl]
    | none =>
      cases h3 : env.db (env.nodes i).header.prevKeyBlock with
      | error e => simp [fetchNewTicketsForNode, h1, h2, h3, cacheLe_refl]
      | ok blk0 =>
        cases h4 : walkPrevKeyBlock env.db (u16pred env.params.ticketMaturity) blk0 with
        | error e => simp [fetchNewTicketsForNode, h1, h2, h3, h4, cacheLe_refl]
        | ok mature =>
          simp only [fetchNewTicketsForNode, h1, h2, h3, h4, if_neg h1]
          exact cacheLe_setNT (cacheLe_refl st) h2 _

/-- An error value produced by the database collaborator on some input. -/
def DbErr (env : Env) (e : Err) : Prop :=
  ∃ h, env.db h = .error e

/-- An error value produced by the `DisconnectNode` collaborator on some
input. -/
def DiscErr (env : Env) (e : Err) : Prop :=
  ∃ s hdr u nt k, env.disconnect s hdr u nt k = .error e

/-- An error value produced by the `ConnectNode` collaborator on some
input. -/
def ConnErr (env : Env) (e : Err) : Prop :=
  ∃ s hdr sp rv nt k, env.connect s hdr sp rv nt k = .error e

/-- An error value produced by the reorganization planner on some input. -/
def ReorgErr (env : Env) (e : Err) : Prop :=
  ∃ i, env.reorg i = .error e

/-- Every error surfaced by `fetchStakeNode` is either one of the two
internally raised conditions (the fork-point `AssertError`, or the modelled
nil-dereference crash) or an error value of one of the collaborators,
propagated unchanged. -/
def ErrFrom (env : Env) (e : Err) : Prop :=
  e = Err.assert ∨ e = Err.panic ∨ ReorgErr env e ∨ DbErr env e ∨
    DiscErr env e ∨ ConnErr env e

/-- Errors of the maturation walk are database errors. -/
theorem walkPrevKeyBlock_err (db : Nat → Except Err Block) :
    ∀ (fuel : Nat) (blk : Block) (e : Err),
      walkPrevKeyBlock db fuel blk = .error e → ∃ h, db h = .error e := by
  intro fuel
  induction fuel with
  | zero => intro blk e h; exact absurd h (by simp [walkPrevKeyBlock])
  | succ n ih =>
    intro blk e h
    by_cases h0 : blk.header.prevKeyBlock = 0
    · rw [walkPrevKeyBlock, if_pos h0] at h
      exact Except.noConfusion h
    · rw [walkPrevKeyBlock, if_neg h0] at h
      cases h1 : db blk.header.prevKeyBlock with
      | error e2 =>
        rw [h1] at h
        have he : e2 = e := by simpa using h
        exact ⟨blk.header.prevKeyBlock, by rw [h1, he]⟩
      | ok blk2 =>
        rw [h1] at h
        exact ih blk2 e h

/-- Errors of `fetchNewTicketsForNode` are database errors. -/
theorem fetchNewTickets_err (env : Env) (st : CacheState) (i : Nat) (e : Err)
    (h : (fetchNewTicketsForNode env st i).2 = .error e) : DbErr env e := by
  by_cases h1 : (env.nodes i).keyHeight < env.params.stakeEnabledHeight
  · simp [fetchNewTicketsForNode, h1] at h
  · cases h2 : st.nt i with
    | some t => simp [fetchNewTicketsForNode, h1, h2] at h
    | none =>
      cases h3 : env.db (env.nodes i).header.prevKeyBlock with
      | error e2 =>
        simp only [fetchNewTicketsForNode, h1, h2, h3, if_neg h1] at h
        exact ⟨(env.nodes i).header.prevKeyBlock, by rw [h3, Except.error.inj h]⟩
      | ok blk0 =>
        cases h4 : walkPrevKeyBlock env.db (u16pred env.params.ticketMaturity) blk0 with
        | error e2 =>
          simp only [fetchNewTicketsForNode, h1, h2, h3, h4, if_neg h1] at h
          have := walkPrevKeyBlock_err env.db _ _ _ h4
          rwa [Except.error.inj h] at this
        | ok mature => simp [fetchNewTicketsForNode, h1, h2, h3, h4] at h

/-- `fillNewTickets` only adds cache entries, never changes one. -/
theorem fillNewTickets_cacheLe (env : Env) (st : CacheState) (i : Nat) :
    CacheLe st (fillNewTickets env st i).1 := by
  cases h1 : st.nt i with
  | some t => simp [fillNewTickets, h1, cacheLe_refl]
  | none =>
    by_cases h2 : (env.nodes i).isKeyBlock
    · cases h3 : fetchNewTicketsForNode env st i with
      | mk st1 r =>
        have hle : CacheLe st st1 := by
          have := fetchNewTickets_cacheLe env st i
          rwa [h3] at this
        cases r with
        | error e => simpa [fillNewTickets, h1, h2, h3] using hle
        | ok t =>
          simp only [fillNewTickets, h1, h2, h3, if_pos h2]
          exact cacheLe_setNT hle h1 t
    · simp only [fillNewTickets, h1, h2, if_neg h2]
      exact cacheLe_setNT (cacheLe_refl st) h1 []

/-- Errors of `fillNewTickets` are database errors. -/
theorem fillNewTickets_err (env : Env) (st : CacheState) (i : Nat) (e : Err)
    (h : (fillNewTickets env st i).2 = .error e) : DbErr env e := by
  cases h1 : st.nt i with
  | some t => simp [fillNewTickets, h1] at h
  | none =>
    by_cases h2 : (env.nodes i).isKeyBlock
    · cases h3 : fetchNewTicketsForNode env st i with
      | mk st1 r =>
        cases r with
        | error e2 =>
          simp only [fillNewTickets, h1, h2, h3, if_pos h2] at h
          have he : e2 = e := by simpa using h
          refine fetchNewTickets_err env st i e ?_
          rw [h3, he]
        | ok t => simp [fillNewTickets, h1, h2, h3] at h
    · simp [fillNewTickets, h1, h2] at h

/-- The detach loop only adds cache entries, never changes one. -/
theorem detachLoop_cacheLe (env : Env) :
    ∀ (l : List Nat) (st : CacheState) (cur : Nat),
      CacheLe st (detachLoop env st cur l).1 := by
  intro l
  induction l with
  | nil => intro st cur; exact cacheLe_refl st
  | cons n rest ih =>
    intro st cur
    cases h1 : st.sn n with
    | some s => simpa [detachLoop, h1] using ih st n
    | none =>
      cases h2 : st.sn cur with
      | none => simp [detachLoop, h1, h2, cacheLe_refl]
      | some curSN =>
        cases h3 : env.disconnect curSN (env.nodes n).header (env.nodes n).undoData
            (st.nt n) (env.nodes cur).isKeyBlock with
        | error e => simp [detachLoop, h1, h2, h3, cacheLe_refl]
        | ok s =>
          simp only [detachLoop, h1, h2, h3]
          exact cacheLe_trans (cacheLe_setSN (cacheLe_refl st) h1 s) (ih (setSN st n s) n)

/-- Errors of the detach loop are the nil-dereference crash or disconnect
errors. -/
theorem detachLoop_err (env : Env) :
    ∀ (l : List Nat) (st : CacheState) (cur : Nat) (e : Err),
      (detachLoop env st cur l).2 = .error e → e = Err.panic ∨ DiscErr env e := by
  intro l
  induction l with
  | nil => intro st cur e h; exact absurd h (by simp [detachLoop])
  | cons n rest ih =>
    intro st cur e h
    cases h1 : st.sn n with
    | some s =>
      simp only [detachLoop, h1] at h
      exact ih st n e h
    | none =>
      cases h2 : st.sn cur with
      | none =>
        simp only [detachLoop, h1, h2] at h
        have he : Err.panic = e := by simpa using h
        exact Or.inl he.symm
      | some curSN =>
        cases h3 : env.disconnect curSN (env.nodes n).header (env.nodes n).undoData
            (st.nt n) (env.nodes cur).isKeyBlock with
        | error e2 =>
          simp only [detachLoop, h1, h2, h3] at h
          have he : e2 = e := by simpa using h
          exact Or.inr ⟨curSN, _, _, _, _, by rw [h3, he]⟩
        | ok s =>
          simp only [detachLoop, h1, h2, h3] at h
          exact ih (setSN st n s) n e h

/-- The final detach step only adds cache entries, never changes one. -/
theorem finalDetach_cacheLe (env : Env) (st : CacheState) (cur : Nat) :
    CacheLe st (finalDetach env st cur).1 := by
  cases h1 : (env.nodes cur).parent with
  | none => simp [finalDetach, h1, cacheLe_refl]
  | some pid =>
    cases h2 : st.sn pid with
    | some s => simp [finalDetach, h1, h2, cacheLe_refl]
    | none =>
      cases h3 : st.sn cur with
      | none => simp [finalDetach, h1, h2, h3, cacheLe_refl]
      | some curSN =>
        cases h4 : env.disconnect curSN (env.nodes pid).header (env.nodes pid).undoData
            (st.nt pid) (env.nodes cur).isKeyBlock with
        | error e => simp [finalDetach, h1, h2, h3, h4, cacheLe_refl]
        | ok s =>
          simp only [finalDetach, h1, h2, h3, h4]
          exact cacheLe_setSN (cacheLe_refl st) h2 s

/-- Errors of the final detach step are the nil-dereference crash or
disconnect errors. -/
theorem finalDetach_err (env : Env) (st : CacheState) (cur : Nat) (e : Err)
    (h : (finalDetach env st cur).2 = .error e) : e = Err.panic ∨ DiscErr env e := by
  cases h1 : (env.nodes cur).parent with
  | none =>
    simp only [finalDetach, h1] at h
    have he : Err.panic = e := by simpa using h
    exact Or.inl he.symm
  | some pid =>
    cases h2 : st.sn pid with
    | some s => simp [finalDetach, h1, h2] at h
    | none =>
      cases h3 : st.sn cur with
      | none =>
        simp only [finalDetach, h1, h2, h3] at h
        have he : Err.panic = e := by simpa using h
        exact Or.inl he.symm
      | some curSN =>
        cases h4 : env.disconnect curSN (env.nodes pid).header (env.nodes pid).undoData
            (st.nt pid) (env.nodes cur).isKeyBlock with
        | error e2 =>
          simp only [finalDetach, h1, h2, h3, h4] at h
          have he : e2 = e := by simpa using h
          exact Or.inr ⟨curSN, _, _, _, _, by rw [h4, he]⟩
        | ok s => simp [finalDetach, h1, h2, h3, h4] at h

/-- The attach loop only adds cache entries, never changes one. -/
theorem attachLoop_cacheLe (env : Env) :
    ∀ (l : List Nat) (st : CacheState) (cur : Nat),
      CacheLe st (attachLoop env st cur l).1 := by
  intro l
  induction l with
  | nil => intro st cur; exact cacheLe_refl st
  | cons n rest ih =>
    intro st cur
    cases h1 : st.sn n with
    | some s => simpa [attachLoop, h1] using ih st n
    | none =>
      cases h2 : fillNewTickets env st n with
      | mk st1 r =>
        have hle : CacheLe st st1 := by
          have := fillNewTickets_cacheLe env st n
          rwa [h2] at this
        cases r with
        | error e => simpa [attachLoop, h1, h2] using hle
        | ok t =>
          cases h3 : st1.sn cur with
          | none => simpa [attachLoop, h1, h2, h3] using hle
          | some curSN =>
            cases h4 : env.connect curSN (env.nodes n).header (env.nodes n).ticketsSpent
                (env.nodes n).ticketsRevoked t (env.nodes n).isKeyBlock with
            | error e => simpa [attachLoop, h1, h2, h3, h4] using hle
            | ok s =>
              simp only [attachLoop, h1, h2, h3, h4]
              have hsn : st.sn n = none := h1
              exact cacheLe_trans (cacheLe_setSN hle hsn s) (ih (setSN st1 n s) n)

/-- Errors of the attach loop are the nil-dereference crash, database errors
(through the new-ticket fill-in) or connect errors. -/
theorem attachLoop_err (env : Env) :
    ∀ (l : List Nat) (st : CacheState) (cur : Nat) (e : Err),
      (attachLoop env st cur l).2 = .error e →
        e = Err.panic ∨ DbErr env e ∨ ConnErr env e := by
  intro l
  induction l with
  | nil => intro st cur e h; exact absurd h (by simp [attachLoop])
  | cons n rest ih =>
    intro st cur e h
    cases h1 : st.sn n with
    | some s =>
      simp only [attachLoop, h1] at h
      exact ih st n e h
    | none =>
      cases h2 : fillNewTickets env st n with
      | mk st1 r =>
        cases r with
        | error e2 =>
          simp only [attachLoop, h1, h2] at h
          have he : e2 = e := by simpa using h
          refine Or.inr (Or.inl (fillNewTickets_err env st n e ?_))
          rw [h2, he]
        | ok t =>
          cases h3 : st1.sn cur with
          | none =>
            simp only [attachLoop, h1, h2, h3] at h
            have he : Err.panic = e := by simpa using h
            exact Or.inl he.symm
          | some curSN =>
            cases h4 : env.connect curSN (env.nodes n).header (env.nodes n).ticketsSpent
                (env.nodes n).ticketsRevoked t (env.nodes n).isKeyBlock with
            | error e2 =>
              simp only [attachLoop, h1, h2, h3, h4] at h
              have he : e2 = e := by simpa using h
              exact Or.inr (Or.inr ⟨curSN, _, _, _, _, _, by rw [h4, he]⟩)
            | ok s =>
              simp only [attachLoop, h1, h2, h3, h4] at h
              exact ih (setSN st1 n s) n e h

/-- The reconstruction path only adds cache entries, never changes one. -/
theorem reorgPath_cacheLe (env : Env) (st : CacheState) (i : Nat) :
    CacheLe st (reorgPath env st i).1 := by
  cases h1 : env.reorg i with
  | error e => simp [reorgPath, h1, cacheLe_refl]
  | ok pr =>
    obtain ⟨detachNodes, attachNodes⟩ := pr
    cases h2 : detachLoop env st env.bestNode detachNodes with
    | mk st1 r1 =>
      have hle1 : CacheLe st st1 := by
        have := detachLoop_cacheLe env detachNodes st env.bestNode
        rwa [h2] at this
      cases r1 with
      | error e => simpa [reorgPath, h1, h2] using hle1
      | ok cur1 =>
        cases h3 : finalDetach env st1 cur1 with
        | mk st2 r2 =>
          have hle2 : CacheLe st st2 := cacheLe_trans hle1 (by
            have := finalDetach_cacheLe env st1 cur1
            rwa [h3] at this)
          cases r2 with
          | error e => simpa [reorgPath, h1, h2, h3] using hle2
          | ok cur2 =>
            by_cases h4 : attachNodes.isEmpty
            · by_cases h5 : (env.nodes cur2).hash ≠ (env.nodes i).hash ∨
                  (env.nodes cur2).height ≠ (env.nodes i).height
              · simpa [reorgPath, h1, h2, h3, h4, h5] using hle2
              · cases h6 : st2.sn cur2 with
                | none => simpa [reorgPath, h1, h2, h3, h4, h5, h6] using hle2
                | some s => simpa [reorgPath, h1, h2, h3, h4, h5, h6] using hle2
            · cases h7 : attachLoop env st2 cur2 attachNodes with
              | mk st3 r3 =>
                have hle3 : CacheLe st st3 := cacheLe_trans hle2 (by
                  have := attachLoop_cacheLe env attachNodes st2 cur2
                  rwa [h7] at this)
                cases r3 with
                | error e => simpa [reorgPath, h1, h2, h3, h4, h7] using hle3
                | ok curF =>
                  cases h8 : st3.sn curF with
                  | none => simpa [reorgPath, h1, h2, h3, h4, h7, h8] using hle3
                  | some s => simpa [reorgPath, h1, h2, h3, h4, h7, h8] using hle3

/-- Errors of the reconstruction path all come from a collaborator or are an
internally raised assertion or crash. -/
theorem reorgPath_err (env : Env) (st : CacheState) (i : Nat) (e : Err)
    (h : (reorgPath env st i).2 = .error e) : ErrFrom env e := by
  cases h1 : env.reorg i with
  | error e2 =>
    simp only [reorgPath, h1] at h
    have he : e2 = e := by simpa using h
    exact Or.inr (Or.inr (Or.inl ⟨i, by rw [h1, he]⟩))
  | ok pr =>
    obtain ⟨detachNodes, attachNodes⟩ := pr
    cases h2 : detachLoop env st env.bestNode detachNodes with
    | mk st1 r1 =>
      cases r1 with
      | error e2 =>
        simp only [reorgPath, h1, h2] at h
        have he : e2 = e := by simpa using h
        have := detachLoop_err env detachNodes st env.bestNode e (by rw [h2, he])
        rcases this with hp | hd
        · exact Or.inr (Or.inl hp)
        · exact Or.inr (Or.inr (Or.inr (Or.inr (Or.inl hd))))
      | ok cur1 =>
        cases h3 : finalDetach env st1 cur1 with
        | mk st2 r2 =>
          cases r2 with
          | error e2 =>
            simp only [reorgPath, h1, h2, h3] at h
            have he : e2 = e := by simpa using h
            have := finalDetach_err env st1 cur1 e (by rw [h3, he])
            rcases this with hp | hd
            · exact Or.inr (Or.inl hp)
            · exact Or.inr (Or.inr (Or.inr (Or.inr (Or.inl hd))))
          | ok cur2 =>
            by_cases h4 : attachNodes = []
            · subst h4
              by_cases h5 : (env.nodes cur2).hash ≠ (env.nodes i).hash ∨
                  (env.nodes cur2).height ≠ (env.nodes i).height
              · simp only [reorgPath, h1, h2, h3, if_pos h5, List.isEmpty_nil, if_true] at h
                have he : Err.assert = e := by simpa using h
                exact Or.inl he.symm
              · cases h6 : st2.sn cur2 with
                | none =>
                  simp only [reorgPath, h1, h2, h3, if_neg h5, h6, List.isEmpty_nil,
                    if_true] at h
                  have he : Err.panic = e := by simpa using h
                  exact Or.inr (Or.inl he.symm)
                | some s =>
                  simp [reorgPath, h1, h2, h3, if_neg h5, h6] at h
            · have h4e : attachNodes.isEmpty = false := by
                rw [← Bool.not_eq_true, List.isEmpty_iff]
                exact h4
              cases h7 : attachLoop env st2 cur2 attachNodes with
              | mk st3 r3 =>
                cases r3 with
                | error e2 =>
                  simp only [reorgPath, h1, h2, h3, h4e, Bool.false_eq_true,
                    if_false, h7] at h
                  have he : e2 = e := by simpa using h
                  have := attachLoop_err env attachNodes st2 cur2 e (by rw [h7, he])
                  rcases this with hp | hd | hc
                  · exact Or.inr (Or.inl hp)
                  · exact Or.inr (Or.inr (Or.inr (Or.inl hd)))
                  · exact Or.inr (Or.inr (Or.inr (Or.inr (Or.inr hc))))
                | ok curF =>
                  cases h8 : st3.sn curF with
                  | none =>
                    simp only [reorgPath, h1, h2, h3, h4e, Bool.false_eq_true,
                      if_false, h7, h8] at h
                    have he : Err.panic = e := by simpa using h
                    exact Or.inr (Or.inl he.symm)
                  | some s =>
                    simp [reorgPath, h1, h2, h3, h4e, h7, h8] at h

/-- `fetchStakeNode` only adds cache entries, never changes one. -/
theorem fetchStakeNode_cacheLe (env : Env) (st : CacheState) (i : Nat) :
    CacheLe st (fetchStakeNode env st i).1 := by
  cases h1 : st.sn i with
  | some s => simp [fetchStakeNode, h1, cacheLe_refl]
  | none =>
    cases h2 : (env.nodes i).parent with
    | none =>
      simp only [fetchStakeNode, h1, h2]
      exact reorgPath_cacheLe env st i
    | some pid =>
      cases h3 : st.sn pid with
      | none =>
        simp only [fetchStakeNode, h1, h2, h3]
        exact reorgPath_cacheLe env st i
      | some psn =>
        cases h4 : fillNewTickets env st i with
        | mk st1 r =>
          have hle1 : CacheLe st st1 := by
            have := fillNewTickets_cacheLe env st i
            rwa [h4] at this
          cases r with
          | error e => simpa [fetchStakeNode, h1, h2, h3, h4] using hle1
          | ok t =>
            cases h5 : env.connect psn (env.nodes i).header (env.nodes i).ticketsSpent
                (env.nodes i).ticketsRevoked t (env.nodes i).isKeyBlock with
            | error e => simpa [fetchStakeNode, h1, h2, h3, h4, h5] using hle1
            | ok s =>
              simp only [fetchStakeNode, h1, h2, h3, h4, h5]
              exact cacheLe_setSN hle1 h1 s

/-- Errors of `fetchStakeNode` all come from a collaborator or are an
internally raised assertion or crash. -/
theorem fetchStakeNode_err (env : Env) (st : CacheState) (i : Nat) (e : Err)
    (h : (fetchStakeNode env st i).2 = .error e) : ErrFrom env e := by
  cases h1 : st.sn i with
  | some s => simp [fetchStakeNode, h1] at h
  | none =>
    cases h2 : (env.nodes i).parent with
    | none =>
      simp only [fetchStakeNode, h1, h2] at h
      exact reorgPath_err env st i e h
    | some pid =>
      cases h3 : st.sn pid with
      | none =>
        simp only [fetchStakeNode, h1, h2, h3] at h
        exact reorgPath_err env st i e h
      | some psn =>
        cases h4 : fillNewTickets env st i with
        | mk st1 r =>
          cases r with
          | error e2 =>
            simp only [fetchStakeNode, h1, h2, h3, h4] at h
            have he : e2 = e := by simpa using h
            exact Or.inr (Or.inr (Or.inr (Or.inl
              (fillNewTickets_err env st i e (by rw [h4, he])))))
          | ok t =>
            cases h5 : env.connect psn (env.nodes i).header (env.nodes i).ticketsSpent
                (env.nodes i).ticketsRevoked t (env.nodes i).isKeyBlock with
            | error e2 =>
              simp only [fetchStakeNode, h1, h2, h3, h4, h5] at h
              have he : e2 = e := by simpa using h
              exact Or.inr (Or.inr (Or.inr (Or.inr (Or.inr
                ⟨psn, _, _, _, _, _, by rw [h5, he]⟩))))
            | ok s => simp [fetchStakeNode, h1, h2, h3, h4, h5] at h

/-- A successful attach walk ends at the last node of the attach list (or at
the starting node when the list is empty). -/
theorem attachLoop_ok_last (env : Env) :
    ∀ (l : List Nat) (st : CacheState) (cur : Nat) (st2 : CacheState) (c : Nat),
      attachLoop env st cur l = (st2, .ok c) → c = l.getLastD cur := by
  intro l
  induction l with
  | nil =>
    intro st cur st2 c h
    simp only [attachLoop] at h
    exact (Except.ok.inj ((Prod.mk.injEq _ _ _ _).mp h).2).symm
  | cons n rest ih =>
    intro st cur st2 c h
    rw [List.getLastD_cons]
    cases h1 : st.sn n with
    | some s =>
      simp only [attachLoop, h1] at h
      exact ih st n st2 c h
    | none =>
      cases h2 : fillNewTickets env st n with
      | mk st1 r =>
        cases r with
        | error e => simp [attachLoop, h1, h2] at h
        | ok t =>
          cases h3 : st1.sn cur with
          | none => simp [attachLoop, h1, h2, h3] at h
          | some curSN =>
            cases h4 : env.connect curSN (env.nodes n).header (env.nodes n).ticketsSpent
                (env.nodes n).ticketsRevoked t (env.nodes n).isKeyBlock with
            | error e => simp [attachLoop, h1, h2, h3, h4] at h
            | ok s =>
              simp only [attachLoop, h1, h2, h3, h4] at h
              exact ih (setSN st1 n s) n st2 c h

/-- Well-formedness of the chain index used by C5: two nodes agreeing in
both hash and height are the same node. -/
def HashHeightInj (env : Env) : Prop :=
  ∀ i j, (env.nodes i).hash = (env.nodes j).hash →
    (env.nodes i).height = (env.nodes j).height → i = j

/-- Well-formedness of the reorganization planner used by C5: a non-empty
attach list ends at the requested node. -/
def ReorgAttachEnd (env : Env) : Prop :=
  ∀ i d a, env.reorg i = .ok (d, a) → a ≠ [] → ∀ x, a.getLastD x = i

/-- After a successful reconstruction walk the requested node's snapshot is
cached and is the returned snapshot. -/
theorem reorgPath_ok_cached (env : Env) (st : CacheState) (i : Nat)
    (st2 : CacheState) (s : Nat)
    (hinj : HashHeightInj env) (hend : ReorgAttachEnd env)
    (h : reorgPath env st i = (st2, .ok s)) : st2.sn i = some s := by
  cases h1 : env.reorg i with
  | error e => simp [reorgPath, h1] at h
  | ok pr =>
    obtain ⟨detachNodes, attachNodes⟩ := pr
    cases h2 : detachLoop env st env.bestNode detachNodes with
    | mk st1 r1 =>
      cases r1 with
      | error e => simp [reorgPath, h1, h2] at h
      | ok cur1 =>
        cases h3 : finalDetach env st1 cur1 with
        | mk stB r2 =>
          cases r2 with
          | error e => simp [reorgPath, h1, h2, h3] at h
          | ok cur2 =>
            by_cases h4 : attachNodes = []
            · subst h4
              by_cases h5 : (env.nodes cur2).hash ≠ (env.nodes i).hash ∨
                  (env.nodes cur2).height ≠ (env.nodes i).height
              · simp [reorgPath, h1, h2, h3, if_pos h5] at h
              · cases h6 : stB.sn cur2 with
                | none => simp [reorgPath, h1, h2, h3, if_neg h5, h6] at h
                | some s2 =>
                  simp only [reorgPath, h1, h2, h3, if_neg h5, h6, List.isEmpty_nil,
                    if_true] at h
                  obtain ⟨hst, hs⟩ := (Prod.mk.injEq _ _ _ _).mp h
                  push_neg at h5
                  have hcur : cur2 = i := hinj cur2 i h5.1 h5.2
                  rw [← hst, ← hcur, h6, Except.ok.inj hs]
            · have h4e : attachNodes.isEmpty = false := by
                rw [← Bool.not_eq_true, List.isEmpty_iff]
                exact h4
              cases h7 : attachLoop env stB cur2 attachNodes with
              | mk st3 r3 =>
                cases r3 with
                | error e => simp [reorgPath, h1, h2, h3, h4e, h7] at h
                | ok curF =>
                  cases h8 : st3.sn curF with
                  | none => simp [reorgPath, h1, h2, h3, h4e, h7, h8] at h
                  | some s2 =>
                    simp only [reorgPath, h1, h2, h3, h4e, Bool.false_eq_true, if_false,
                      h7, h8] at h
                    obtain ⟨hst, hs⟩ := (Prod.mk.injEq _ _ _ _).mp h
                    have hlast : curF = attachNodes.getLastD cur2 :=
                      attachLoop_ok_last env attachNodes stB cur2 st3 curF h7
                    have hi : curF = i := by
                      rw [hlast, hend i detachNodes attachNodes h1 h4 cur2]
                    rw [← hst, ← hi, h8, Except.ok.inj hs]

/-- After any successful `fetchStakeNode` call the requested node's snapshot
is cached and is the returned snapshot. -/
theorem fetchStakeNode_ok_cached (env : Env) (st : CacheState) (i : Nat)
    (st2 : CacheState) (s : Nat)
    (hinj : HashHeightInj env) (hend : ReorgAttachEnd env)
    (h : fetchStakeNode env st i = (st2, .ok s)) : st2.sn i = some s := by
  cases h1 : st.sn i with
  | some s0 =>
    simp only [fetchStakeNode, h1] at h
    obtain ⟨hst, hs⟩ := (Prod.mk.injEq _ _ _ _).mp h
    rw [← hst, h1, Except.ok.inj hs]
  | none =>
    cases h2 : (env.nodes i).parent with
    | none =>
      simp only [fetchStakeNode, h1, h2] at h
      exact reorgPath_ok_cached env st i st2 s hinj hend h
    | some pid =>
      cases h3 : st.sn pid with
      | none =>
        simp only [fetchStakeNode, h1, h2, h3] at h
        exact reorgPath_ok_cached env st i st2 s hinj hend h
      | some psn =>
        cases h4 : fillNewTickets env st i with
        | mk st1 r =>
          cases r with
          | error e => simp [fetchStakeNode, h1, h2, h3, h4] at h
          | ok t =>
            cases h5 : env.connect psn (env.nodes i).header (env.nodes i).ticketsSpent
                (env.nodes i).ticketsRevoked t (env.nodes i).isKeyBlock with
            | error e => simp [fetchStakeNode, h1, h2, h3, h4, h5] at h
            | ok s2 =>
              simp only [fetchStakeNode, h1, h2, h3, h4, h5] at h
              obtain ⟨hst, hs⟩ := (Prod.mk.injEq _ _ _ _).mp h
              rw [← hst, ← Except.ok.inj hs]
              exact setSN_sn_self st1 i s2

/-! ### Claim C3 -/

/-- Environment refuting C3 as stated: the best chain is node 0 with a
cached snapshot; the planner detaches nodes 1 and 2 towards the requested
node 3; the first disconnect succeeds (caching node 1's snapshot) and the
second fails with the database error `dbe 7`. -/
def envC3 : Env where
  params := ⟨0, 2⟩
  nodes := fun i => ⟨i, (i : Int), 0, false, none, ⟨i⟩, [], [], 0⟩
  bestNode := 0
  db := fun _ => .error (.dbe 0)
  connect := fun _ _ _ _ _ _ => .error (.dbe 1)
  disconnect := fun _ hdr _ _ _ =>
    if hdr.prevKeyBlock = 1 then .ok 11 else .error (.dbe 7)
  reorg := fun i => if i = 3 then .ok ([1, 2], []) else .error (.dbe 9)

/-- The cache state before the C3 run: only the best node's snapshot is
filled in, as `fetchStakeNode` assumes. -/
def stC3 : CacheState :=
  ⟨fun j => if j = 0 then some 10 else none, fun _ => none⟩

/-- Counterexample to C3 as stated: in `envC3` the second disconnect of the
detach walk fails with the database error `dbe 7`; `fetchStakeNode` returns
that error unchanged, but the caches are NOT left as they were before the
call — the snapshot of detach node 1, produced by the first, successful,
disconnect, remains committed in the cache. -/
theorem C3_counterexample :
    (fetchStakeNode envC3 stC3 3).2 = .error (.dbe 7) ∧
    stC3.sn 1 = none ∧
    (fetchStakeNode envC3 stC3 3).1.sn 1 = some 11 :=
  ⟨rfl, rfl, rfl⟩

/-- C3 (amended): if a database read (or any collaborator call) fails during
`fetchStakeNode`'s detach/attach reconstruction walk, the error surfaced to
the caller is a collaborator error value propagated unchanged (or one of the
two documented internal conditions: the fork-point assertion and the
modelled nil-dereference crash), and no already-filled cache entry is ever
modified — the caches are fill-once; however, snapshots and ticket lists
cached by walk steps completed before the failure remain committed (the
chain index's immutable node data is unmodified by construction). -/
theorem C3_fetchStakeNode_error_fill_once (env : Env) (st : CacheState) (i : Nat) :
    CacheLe st (fetchStakeNode env st i).1 ∧
    ∀ e, (fetchStakeNode env st i).2 = .error e → ErrFrom env e :=
  ⟨fetchStakeNode_cacheLe env st i, fun e h => fetchStakeNode_err env st i e h⟩

/-- Witness for the amended C3, at the same failing input as the
counterexample: the final cache state extends the initial one, and the
surfaced error `dbe 7` is a collaborator-produced value. -/
theorem C3_fetchStakeNode_error_fill_once_witness :
    CacheLe stC3 (fetchStakeNode envC3 stC3 3).1 ∧ ErrFrom envC3 (Err.dbe 7) :=
  ⟨(C3_fetchStakeNode_error_fill_once envC3 stC3 3).1,
   (C3_fetchStakeNode_error_fill_once envC3 stC3 3).2 (Err.dbe 7) rfl⟩

/-! ### Claim C4 -/

/-- C4: whenever the reorganization plan for the requested node has an empty
attach list, the walk is forced through the reconstruction path (no cached
snapshot on the node, and no parent fast path), the detach walk and final
detach succeed, and the node reached differs from the requested node in hash
or height, `fetchStakeNode` returns the fork-point `AssertError` and no
stake node. -/
theorem C4_fork_point_mismatch_asserts (env : Env) (st : CacheState) (i : Nat)
    (detach : List Nat) (st1 : CacheState) (cur1 : Nat) (st2 : CacheState) (cur2 : Nat)
    (hsn : st.sn i = none)
    (hpar : (env.nodes i).parent = none ∨
      ∃ pid, (env.nodes i).parent = some pid ∧ st.sn pid = none)
    (hreorg : env.reorg i = .ok (detach, []))
    (hdetach : detachLoop env st env.bestNode detach = (st1, .ok cur1))
    (hfinal : finalDetach env st1 cur1 = (st2, .ok cur2))
    (hmm : (env.nodes cur2).hash ≠ (env.nodes i).hash ∨
      (env.nodes cur2).height ≠ (env.nodes i).height) :
    fetchStakeNode env st i = (st2, .error .assert) := by
  have hr : reorgPath env st i = (st2, .error .assert) := by
    simp only [reorgPath, hreorg, hdetach, hfinal, List.isEmpty_nil, if_true, if_pos hmm]
  rcases hpar with hp | ⟨pid, hp, hpsn⟩
  · simp only [fetchStakeNode, hsn, hp]
    exact hr
  · simp only [fetchStakeNode, hsn, hp, hpsn]
    exact hr

/-- Environment for the C4 witness: the best node is 2 (snapshot cached),
its parent 1 is the purported fork point (snapshot cached), and the planner
reports an empty detach and attach plan for the requested node 3, whose hash
and height differ from node 1's. -/
def envC4 : Env where
  params := ⟨0, 2⟩
  nodes := fun i => ⟨i, (i : Int), 0, false, if i = 2 then some 1 else none, ⟨i⟩, [], [], 0⟩
  bestNode := 2
  db := fun _ => .error (.dbe 0)
  connect := fun _ _ _ _ _ _ => .error (.dbe 1)
  disconnect := fun _ _ _ _ _ => .error (.dbe 1)
  reorg := fun i => if i = 3 then .ok ([], []) else .error (.dbe 9)

/-- The cache state for the C4 witness: snapshots of the best node 2 and the
fork point 1 are cached. -/
def stC4 : CacheState :=
  ⟨fun j => if j = 2 then some 10 else if j = 1 then some 9 else none, fun _ => none⟩

/-- Witness for C4: in `envC4` the walk ends at node 1 while node 3 was
requested, and `fetchStakeNode` surfaces the assertion error. -/
theorem C4_fork_point_mismatch_asserts_witness :
    fetchStakeNode envC4 stC4 3 = (stC4, .error .assert) :=
  C4_fork_point_mismatch_asserts envC4 stC4 3 [] stC4 2 stC4 1
    rfl (Or.inl rfl) rfl rfl rfl (Or.inl (by decide))

/-! ### Claim C5 -/

/-- C5: under a well-formed chain index (hash/height pairs identify nodes)
and a well-formed reorganization planner (a non-empty attach list ends at
the requested node), a successful `fetchStakeNode` call leaves the returned
snapshot cached on the node, so an immediately repeated call returns the
very same snapshot through the cache fast path and leaves the state
unchanged. -/
theorem C5_fetchStakeNode_cached_idempotent (env : Env) (st st2 : CacheState)
    (i s : Nat) (hinj : HashHeightInj env) (hend : ReorgAttachEnd env)
    (h : fetchStakeNode env st i = (st2, .ok s)) :
    fetchStakeNode env st2 i = (st2, .ok s) := by
  have hc : st2.sn i = some s := fetchStakeNode_ok_cached env st i st2 s hinj hend h
  simp [fetchStakeNode, hc]

/-- Environment for the C5 witness: distinct hashes per node id and an
always-failing planner (so its well-formedness holds vacuously). -/
def envC5 : Env where
  params := ⟨0, 2⟩
  nodes := fun i => ⟨i, 0, 0, false, none, ⟨0⟩, [], [], 0⟩
  bestNode := 0
  db := fun _ => .error (.dbe 0)
  connect := fun _ _ _ _ _ _ => .error (.dbe 1)
  disconnect := fun _ _ _ _ _ => .error (.dbe 1)
  reorg := fun _ => .error (.dbe 9)

/-- In `envC5` a node's hash already determines its id. -/
theorem envC5_inj : HashHeightInj envC5 := fun _ _ h1 _ => h1

/-- In `envC5` the planner never succeeds, so the attach-end condition holds
vacuously. -/
theorem envC5_end : ReorgAttachEnd envC5 := fun _ _ _ hr =>
  Except.noConfusion hr

/-- The cache state for the C5 witness: node 0's snapshot is cached. -/
def stC5 : CacheState :=
  ⟨fun j => if j = 0 then some 42 else none, fun _ => none⟩

/-- Witness for C5: the first call on node 0 succeeds with snapshot 42 and
state unchanged, and the repeated call returns the identical result. -/
theorem C5_fetchStakeNode_cached_idempotent_witness :
    fetchStakeNode envC5 stC5 0 = (stC5, .ok 42) :=
  C5_fetchStakeNode_cached_idempotent envC5 stC5 stC5 0 42 envC5_inj envC5_end rfl

end Hcashd
